import Mathlib

/-!
Verification of the credential-issuance subsystem and request-gateway
middleware of the `poke-mcp-didatodolist` repository.

The Python source is embedded shallowly: each function is translated to a
computable Lean definition over explicit state, HTTP responses are passed
in as values, and Python truthiness / string operations are modelled by
dedicated helpers.
-/

/- ### Python value helpers -/

/-- Truthiness of an optional string, as Python evaluates `if x:` when `x`
is `None` or a `str` (`None` and `""` are falsy). -/
def optTruthy : Option String → Bool
  | none => false
  | some s => !(s == "")

/-- Python `a or b` on optional strings: `a` if truthy, else `b`. -/
def pyOr (a b : Option String) : Option String :=
  if optTruthy a then a else b

/-- Python `s.startswith(pre)`. -/
def pyStartsWith (s pre : String) : Bool :=
  pre.data.isPrefixOf s.data

/-- Python `s.lower()` (ASCII case folding, as used for header names). -/
def pyToLower (s : String) : String := ⟨s.data.map Char.toLower⟩

/-- Python `s.replace(pat, repl, 1)` on character lists: replace the first
occurrence of `pat` (an empty pattern matches at the start). -/
def replaceFirstL (pat repl : List Char) : List Char → List Char
  | [] => if pat.isEmpty then repl else []
  | c :: rest =>
    if pat.isPrefixOf (c :: rest) then repl ++ (c :: rest).drop pat.length
    else c :: replaceFirstL pat repl rest

/-- Python `s.replace(pat, repl, 1)` on strings. -/
def pyReplaceFirst (s pat repl : String) : String :=
  ⟨replaceFirstL pat.data repl.data s.data⟩

/- ### ASGI gateway middleware (`src/utils/asgi_auth.py`) -/

/-- An ASGI scope restricted to the fields `ApiKeyAuthMiddleware.__call__`
reads: the scope type, the request path, and the (latin1-decoded) header
pairs. -/
structure Scope where
  type : String
  path : String
  headers : List (String × String)
deriving Repr, DecidableEq

/-- Configuration state of `ApiKeyAuthMiddleware` after `__init__`. -/
structure ApiKeyAuthMiddleware where
  header_name : String
  expected_key : String
  sse_path : String
  rewrite_to : Option String
deriving Repr, DecidableEq

/-- `ApiKeyAuthMiddleware.__init__`: lowercases the header name and falls
back to the `MCP_API_KEY` environment value (default `"123"`) when no
expected key is supplied. -/
def ApiKeyAuthMiddleware.mkConfig (header_name : String) (expected_key : Option String)
    (envApiKey : Option String) (sse_path : String) (rewrite_to : Option String) :
    ApiKeyAuthMiddleware :=
  { header_name := pyToLower header_name
    expected_key := (pyOr expected_key (some (envApiKey.getD "123"))).getD ""
    sse_path := sse_path
    rewrite_to := rewrite_to }

/-- Plain-text body of the middleware's 401 response. -/
def unauthorizedBody : String := "Unauthorized: missing or invalid x-api-key"

/-- Result of one middleware invocation: either a 401 response is sent and
the downstream app is never invoked, or the downstream app is invoked with
a (possibly path-rewritten) scope. -/
inductive GatewayResult where
  | reject (status : Nat) (body : String)
  | forward (scope : Scope)
deriving Repr, DecidableEq

/-- The header dictionary built in `__call__` (`{k.lower(): v for k, v in
headers}`, so on duplicate lowercased keys the last pair wins) followed by
`.get(name)`. -/
def headerGet (headers : List (String × String)) (name : String) : Option String :=
  ((headers.map (fun p => (pyToLower p.1, p.2))).reverse.find? (fun p => p.1 == name)).map Prod.snd

/-- `ApiKeyAuthMiddleware.__call__`: for an HTTP scope whose path starts
with `sse_path` (or with `rewrite_to` when that is truthy), compare the
configured header against `expected_key`; reject with 401 on mismatch,
otherwise forward, rewriting the first occurrence of `sse_path` to
`rewrite_to` when a rewrite is configured and the path starts with
`sse_path`.  All other scopes are forwarded unchanged. -/
def ApiKeyAuthMiddleware.call (m : ApiKeyAuthMiddleware) (scope : Scope) : GatewayResult :=
  if scope.type == "http" then
    let path := scope.path
    if pyStartsWith path m.sse_path ||
        (optTruthy m.rewrite_to && pyStartsWith path (m.rewrite_to.getD "")) then
      let api_key := headerGet scope.headers m.header_name
      if api_key ≠ some m.expected_key then
        .reject 401 unauthorizedBody
      else if optTruthy m.rewrite_to && pyStartsWith path m.sse_path then
        .forward { scope with path := pyReplaceFirst path m.sse_path (m.rewrite_to.getD "") }
      else
        .forward scope
    else
      .forward scope
  else
    .forward scope

/- ### OAuth client (`src/utils/oauth_auth.py`) -/

/-- Mutable state of a `DidaOAuthClient` instance (the fields set in
`__init__`). -/
structure DidaOAuthClient where
  client_id : String
  client_secret : String
  redirect_uri : String
  access_token : Option String
  refresh_token : Option String
deriving Repr, DecidableEq

/-- `DidaOAuthClient.__init__`: both token fields start out as `None`. -/
def DidaOAuthClient.init (cid sec uri : String) : DidaOAuthClient :=
  ⟨cid, sec, uri, none, none⟩

/-- Parsed JSON body of a token-endpoint response, restricted to the
fields the client reads; `none` models an absent field. -/
structure TokenResponse where
  access_token : Option String
  refresh_token : Option String
  refreshToken : Option String
deriving Repr, DecidableEq

/-- Outcome of `requests.post` plus `raise_for_status()`: a 2xx response
with parsed JSON body, an HTTP error status, or a transport-level
failure. -/
inductive HttpResult where
  | ok (body : TokenResponse)
  | httpError (status : Nat)
  | transportError
deriving Repr, DecidableEq

/-- `DidaOAuthClient.exchange_token`: on a 2xx response, store the body's
`access_token` and `refresh_token` (falling back to a `refreshToken`
field when `refresh_token` is falsy) and report success iff the stored
access token is truthy; on an HTTP or transport error, return false with
the state unchanged. -/
def DidaOAuthClient.exchange_token (c : DidaOAuthClient) (resp : HttpResult) :
    Bool × DidaOAuthClient :=
  match resp with
  | .ok body =>
    let c1 : DidaOAuthClient :=
      { c with access_token := body.access_token, refresh_token := body.refresh_token }
    let c2 : DidaOAuthClient :=
      if optTruthy c1.refresh_token then c1
      else { c1 with refresh_token := pyOr body.refreshToken body.refresh_token }
    (optTruthy c2.access_token, c2)
  | .httpError _ => (false, c)
  | .transportError => (false, c)

/-- `DidaOAuthClient.refresh_access_token`: the pair's last component
counts the outbound HTTP calls made.  When the stored refresh token is
not truthy the method returns false immediately with no call; otherwise
one POST is made, and on 2xx the access token is overwritten from the
body while the refresh token is replaced only when the body supplies a
truthy one (the method then returns true unconditionally); on any error
the state is unchanged and false is returned. -/
def DidaOAuthClient.refresh_access_token (c : DidaOAuthClient) (resp : HttpResult) :
    Bool × DidaOAuthClient × Nat :=
  if !optTruthy c.refresh_token then (false, c, 0)
  else
    match resp with
    | .ok body =>
      let c1 : DidaOAuthClient := { c with access_token := body.access_token }
      let c2 : DidaOAuthClient :=
        if optTruthy body.refresh_token then { c1 with refresh_token := body.refresh_token }
        else c1
      (true, c2, 1)
    | .httpError _ => (false, c, 1)
    | .transportError => (false, c, 1)

/-- Contents of `oauth_config.json`; `none` models an absent key (a JSON
`null` value is also modelled as absent). -/
structure OAuthConfig where
  client_id : Option String
  client_secret : Option String
  redirect_uri : Option String
  access_token : Option String
  refresh_token : Option String
deriving Repr, DecidableEq

/-- `DidaOAuthClient.save_tokens`: refuses (returns `none`, no file
written) when the stored access token is not truthy; otherwise returns
the configuration object written to disk. -/
def DidaOAuthClient.save_tokens (c : DidaOAuthClient) : Option OAuthConfig :=
  if !optTruthy c.access_token then none
  else some { client_id := some c.client_id, client_secret := some c.client_secret,
              redirect_uri := some c.redirect_uri,
              access_token := c.access_token, refresh_token := c.refresh_token }

/-- `DidaOAuthClient.load_tokens`: a `none` input models a missing or
unparsable file (fields untouched, returns false).  With a parsed file,
`client_id`, `client_secret` and `redirect_uri` keep their previous value
when the key is absent (`config.get(key, default)`), while `access_token`
and `refresh_token` are overwritten with the file's values (`None` when
absent); returns true iff the resulting access token is truthy. -/
def DidaOAuthClient.load_tokens (c : DidaOAuthClient) (file : Option OAuthConfig) :
    Bool × DidaOAuthClient :=
  match file with
  | none => (false, c)
  | some cfg =>
    let c1 : DidaOAuthClient :=
      { c with
        client_id := cfg.client_id.getD c.client_id,
        client_secret := cfg.client_secret.getD c.client_secret,
        redirect_uri := cfg.redirect_uri.getD c.redirect_uri,
        access_token := cfg.access_token,
        refresh_token := cfg.refresh_token }
    (optTruthy c1.access_token, c1)

/-- `DidaOAuthClient.get_headers`: raises `ValueError` (modelled as
`none`) when the access token is not truthy, else returns the
Authorization and Content-Type headers. -/
def DidaOAuthClient.get_headers (c : DidaOAuthClient) : Option (List (String × String)) :=
  if !optTruthy c.access_token then none
  else some [("Authorization", "Bearer " ++ c.access_token.getD ""),
             ("Content-Type", "application/json")]

/-- `DidaOAuthClient.AUTH_URL`. -/
def AUTH_URL : String := "https://dida365.com/oauth/authorize"

/-- Join strings with a separator (Python `sep.join`). -/
def joinSep (sep : String) : List String → String
  | [] => ""
  | [s] => s
  | s :: rest => s ++ sep ++ joinSep sep rest

/-- `DidaOAuthClient.get_authorization_url`: assembles the query string by
joining raw `f"{k}={v}"` pairs with `&`; no percent-encoding is applied
to any parameter value. -/
def DidaOAuthClient.get_authorization_url (c : DidaOAuthClient) (scope : String) : String :=
  let params : List (String × String) :=
    [("client_id", c.client_id), ("scope", scope), ("state", "random_state"),
     ("redirect_uri", c.redirect_uri), ("response_type", "code")]
  AUTH_URL ++ "?" ++ joinSep "&" (params.map (fun p => p.1 ++ "=" ++ p.2))

/- ### Standard URL query decoding (the parse-back side of claim C3) -/

/-- Split a character list at every occurrence of `sep`. -/
def splitOnChar (sep : Char) : List Char → List (List Char)
  | [] => [[]]
  | c :: rest =>
    let r := splitOnChar sep rest
    if c = sep then [] :: r
    else
      match r with
      | [] => [[c]]
      | g :: gs => (c :: g) :: gs

/-- Split a key/value segment at the first `=`; the value keeps any
further `=` characters. -/
def splitKV : List Char → List Char × List Char
  | [] => ([], [])
  | c :: rest =>
    if c = '=' then ([], rest)
    else
      let p := splitKV rest
      (c :: p.1, p.2)

/-- Value of a hexadecimal digit. -/
def hexVal (c : Char) : Option Nat :=
  if '0' ≤ c ∧ c ≤ '9' then some (c.toNat - '0'.toNat)
  else if 'a' ≤ c ∧ c ≤ 'f' then some (c.toNat - 'a'.toNat + 10)
  else if 'A' ≤ c ∧ c ≤ 'F' then some (c.toNat - 'A'.toNat + 10)
  else none

/-- Standard `application/x-www-form-urlencoded` decoding: `+` becomes a
space, `%hh` becomes the character with code `hh`, malformed escapes are
kept verbatim.  Modelled from the claim's words ("standard URL query
decoding"), not from repository code. -/
def percentDecode : List Char → List Char
  | [] => []
  | '+' :: rest => ' ' :: percentDecode rest
  | '%' :: h1 :: h2 :: rest =>
    match hexVal h1, hexVal h2 with
    | some a, some b => Char.ofNat (16 * a + b) :: percentDecode rest
    | _, _ => '%' :: percentDecode (h1 :: h2 :: rest)
  | c :: rest => c :: percentDecode rest

/-- Decode a URL query string into (key, value) pairs: split on `&`, then
at the first `=`, then percent-decode both sides. -/
def parseQuery (q : String) : List (String × String) :=
  (splitOnChar '&' q.data).map (fun seg =>
    let p := splitKV seg
    (⟨percentDecode p.1⟩, ⟨percentDecode p.2⟩))

/-- The query part of a URL: everything after the first `?`. -/
def queryAfter : List Char → List Char
  | [] => []
  | c :: rest => if c = '?' then rest else queryAfter rest

/- ### Operation traces over a client session (claim C2) -/

/-- One observable operation on a `DidaOAuthClient` session together with
the external input it consumes.  `authFlowEnvWrite` models
`scripts/oauth_authenticate.py` `main()`: an `authorize()` run ending in
`exchange_token`, followed — on success only — by `write_env_tokens` with
the session's tokens. -/
inductive Op where
  | exchange (resp : HttpResult)
  | refresh (resp : HttpResult)
  | save
  | load (file : Option OAuthConfig)
  | getHeaders
  | authFlowEnvWrite (resp : HttpResult)
deriving Repr

/-- Apply one operation: the new session state, the access tokens emitted
in Authorization headers by this operation, and the access tokens
persisted (to `oauth_config.json` or `.env`) by this operation. -/
def stepClient (c : DidaOAuthClient) : Op → DidaOAuthClient × List String × List String
  | .exchange resp => ((c.exchange_token resp).2, [], [])
  | .refresh resp => ((c.refresh_access_token resp).2.1, [], [])
  | .save =>
    (c, [],
      match c.save_tokens with
      | some cfg => [cfg.access_token.getD ""]
      | none => [])
  | .load file => ((c.load_tokens file).2, [], [])
  | .getHeaders =>
    (c,
      (match c.get_headers with
       | some _ => [c.access_token.getD ""]
       | none => []),
      [])
  | .authFlowEnvWrite resp =>
    let r := c.exchange_token resp
    (r.2, [], if r.1 then [r.2.access_token.getD ""] else [])

/-- Run a list of operations from a state, accumulating emitted and
persisted access tokens. -/
def runOps (c : DidaOAuthClient) : List Op → DidaOAuthClient × List String × List String
  | [] => (c, [], [])
  | op :: ops =>
    let r := stepClient c op
    let rest := runOps r.1 ops
    (rest.1, r.2.1 ++ rest.2.1, r.2.2 ++ rest.2.2)

/-- The non-empty access tokens contained in the successful (2xx) HTTP
response consumed by an exchange or refresh operation. -/
def respATokens : Op → List String
  | .exchange (.ok body) | .refresh (.ok body) | .authFlowEnvWrite (.ok body) =>
    (match body.access_token with
     | some t => if t == "" then [] else [t]
     | none => [])
  | _ => []

/-- All non-empty access tokens carried by successful exchange/refresh
responses along a trace. -/
def allRespATokens (ops : List Op) : List String := (ops.map respATokens).flatten

/-- The access tokens contained in configuration files consumed by `load`
operations. -/
def fileATokens : Op → List String
  | .load (some cfg) =>
    (match cfg.access_token with
     | some t => [t]
     | none => [])
  | _ => []

/-- All access tokens read from configuration files along a trace. -/
def allFileATokens (ops : List Op) : List String := (ops.map fileATokens).flatten

/- ### MCP JSON-RPC endpoint bearer check (`src/http_server.py`) -/

/-- An HTTP request as seen by the FastAPI endpoint: its header pairs, in
arrival order. -/
structure HttpRequest where
  headers : List (String × String)
deriving Repr, DecidableEq

/-- Starlette's `request.headers.get(name, "")`: the lookup is
case-insensitive and returns the first matching value, defaulting to the
empty string. -/
def HttpRequest.headerGetD (req : HttpRequest) (name : String) : String :=
  ((req.headers.find? (fun p => pyToLower p.1 == pyToLower name)).map Prod.snd).getD ""

/-- Python `s.replace(old, new)` for the non-empty pattern `p :: ps`:
replace all non-overlapping occurrences, scanning left to right.  The
`Nat` argument is recursion fuel; every step consumes at least one
character, so any fuel from the input's length up computes the result. -/
def pyReplaceAllFuel (p : Char) (ps repl : List Char) : Nat → List Char → List Char
  | 0, l => l
  | _, [] => []
  | n + 1, c :: rest =>
    if c = p ∧ ps.isPrefixOf rest then
      repl ++ pyReplaceAllFuel p ps repl n (rest.drop ps.length)
    else c :: pyReplaceAllFuel p ps repl n rest

/-- Python `s.replace(old, new)` on character lists, pattern `p :: ps`. -/
def pyReplaceAllL (p : Char) (ps repl l : List Char) : List Char :=
  pyReplaceAllFuel p ps repl l.length l

/-- The characters Python `str.strip()` removes (those with
`str.isspace()` true, per CPython): `\x09`-`\x0d`, `\x1c`-`\x1f`, the
space, NEL `\x85`, no-break space `\xa0`, the Ogham space mark, the
Unicode space separators U+2000-U+200A, the line and paragraph
separators, the narrow and medium mathematical spaces, and the
ideographic space. -/
def pyIsSpace (c : Char) : Bool :=
  c = '\t' || c = '\n' || c = '\x0b' || c = '\x0c' || c = '\r' ||
  c = '\x1c' || c = '\x1d' || c = '\x1e' || c = '\x1f' || c = ' ' ||
  c = '\x85' || c = '\xa0' || c = '\u1680' ||
  c = '\u2000' || c = '\u2001' || c = '\u2002' || c = '\u2003' ||
  c = '\u2004' || c = '\u2005' || c = '\u2006' || c = '\u2007' ||
  c = '\u2008' || c = '\u2009' || c = '\u200a' ||
  c = '\u2028' || c = '\u2029' || c = '\u202f' || c = '\u205f' ||
  c = '\u3000'

/-- Python `s.strip()` on character lists: drop the `pyIsSpace`
characters from both ends. -/
def pyStripL (l : List Char) : List Char :=
  ((l.dropWhile pyIsSpace).reverse.dropWhile pyIsSpace).reverse

/-- Python `s.strip()`. -/
def pyStrip (s : String) : String := ⟨pyStripL s.data⟩

/-- The token the handler derives from the `Authorization` header when it
starts with `"Bearer "`: `auth_header.replace("Bearer ", "").strip()`. -/
def bearerToken (auth_header : String) : String :=
  pyStrip ⟨pyReplaceAllL 'B' "earer ".data [] auth_header.data⟩

/-- `verify_api_key` in `src/http_server.py`: allow everything when no API
key is configured; otherwise derive a token from the `Authorization`
header when it starts with `"Bearer "` (removing every `"Bearer "`
occurrence and stripping), else from a non-empty `X-API-Key` header, else
from a non-empty `x-api-key` header (each stripped), and accept iff the
derived token is non-empty and equals the configured key. -/
def verify_api_key (apiKey : String) (req : HttpRequest) : Bool :=
  if apiKey == "" then true
  else
    let auth_header := req.headerGetD "Authorization"
    let api_key_header := req.headerGetD "X-API-Key"
    let x_api_key_header := req.headerGetD "x-api-key"
    let token : Option String :=
      if pyStartsWith auth_header "Bearer " then some (bearerToken auth_header)
      else if api_key_header ≠ "" then some (pyStrip api_key_header)
      else if x_api_key_header ≠ "" then some (pyStrip x_api_key_header)
      else none
    match token with
    | none => false
    | some t => if t == "" then false else t == apiKey

/-- Result of the `/mcp` POST handler's authentication gate: either the
401 JSON-RPC error response (carrying its error code), produced before
the request body is read, or the body handed on to protocol handling. -/
inductive McpResult where
  | unauthorized (status : Nat) (code : Int)
  | handled (body : String)
deriving Repr, DecidableEq

/-- The authentication gate of `mcp_endpoint` in `src/http_server.py`:
when an API key is configured and `verify_api_key` rejects, respond 401
with JSON-RPC error code −32001 without reading the request body. -/
def mcp_endpoint (apiKey : String) (req : HttpRequest) (body : String) : McpResult :=
  if apiKey != "" && !(verify_api_key apiKey req) then .unauthorized 401 (-32001)
  else .handled body

/- ### Env-file token store (`src/scripts/oauth_authenticate.py`) -/

/-- The line-break characters recognised by Python `str.splitlines`. -/
def isLineBreak (c : Char) : Bool :=
  c = '\n' || c = '\r' || c = '\x0b' || c = '\x0c' ||
  c = '\x1c' || c = '\x1d' || c = '\x1e' || c = '\x85' ||
  c = '\u2028' || c = '\u2029'

/-- Python `str.splitlines` on character lists (`splitlinesGo skip acc
l`, with `acc` holding the current line reversed): every line-break
character ends a line, `\r\n` counts as a single break (after a `\r`
break the flag `skip` swallows an immediately following `\n`), and a
final fragment is emitted only when non-empty. -/
def splitlinesGo : Bool → List Char → List Char → List (List Char)
  | _, acc, [] => if acc.isEmpty then [] else [acc.reverse]
  | skip, acc, c :: rest =>
    if skip ∧ c = '\n' then splitlinesGo false acc rest
    else if c = '\r' then acc.reverse :: splitlinesGo true [] rest
    else if isLineBreak c then acc.reverse :: splitlinesGo false [] rest
    else splitlinesGo false (c :: acc) rest

/-- Python `content.splitlines()`. -/
def pySplitlinesL (l : List Char) : List (List Char) := splitlinesGo false [] l

/-- The env key for the access token. -/
def ACCESS_KEY : List Char := "DIDA_ACCESS_TOKEN".data

/-- The env key for the refresh token. -/
def REFRESH_KEY : List Char := "DIDA_REFRESH_TOKEN".data

/-- `ln.startswith(f"{key}=")`. -/
def lineHasKey (key ln : List Char) : Bool := (key ++ ['=']).isPrefixOf ln

/-- `upsert` inside `write_env_tokens`: remove every line starting with
`key=`, then append `key=value` when the value is not `None`. -/
def upsertLine (key : List Char) (value : Option (List Char)) (lines : List (List Char)) :
    List (List Char) :=
  let pruned := lines.filter (fun ln => !lineHasKey key ln)
  match value with
  | some v => pruned ++ [key ++ '=' :: v]
  | none => pruned

/-- `content_endswith_newline` from the script: false on an empty list,
else whether the last line ends with `"\n"`. -/
def content_endswith_newline (lines : List (List Char)) : Bool :=
  match lines.getLast? with
  | none => false
  | some ln => ln.getLast? == some '\n'

/-- Python `"\n".join` on character-list lines. -/
def joinNL : List (List Char) → List Char
  | [] => []
  | [l] => l
  | l :: rest => l ++ '\n' :: joinNL rest

/-- The lines read from the existing file (`none` models a missing
file). -/
def linesOf (existing : Option (List Char)) : List (List Char) :=
  match existing with
  | none => []
  | some content => pySplitlinesL content

/-- The line list produced by one `write_env_tokens` call: split the
existing content into lines, upsert the access-token line, then the
refresh-token line (`refresh_token or ""`). -/
def writeEnvLines (existing : Option (List Char)) (a : List Char) (r : Option (List Char)) :
    List (List Char) :=
  upsertLine REFRESH_KEY (some (r.getD [])) (upsertLine ACCESS_KEY (some a) (linesOf existing))

/-- `write_env_tokens`: the full file content written back — the lines
joined with `"\n"`, plus a final newline when the last line does not
already end with one. -/
def write_env_tokens (existing : Option (List Char)) (a : List Char) (r : Option (List Char)) :
    List Char :=
  joinNL (writeEnvLines existing a r)
    ++ (if !content_endswith_newline (writeEnvLines existing a r) then ['\n'] else [])

/-- A character list free of line-break characters. -/
def lbFree (l : List Char) : Bool := l.all (fun c => !isLineBreak c)

/- ### OAuth callback listener (`src/utils/oauth_auth.py`) -/

/-- One callback request, represented by its parsed query parameters
(`parse_qs` output flattened to first values; `parse_qs` keeps only
non-empty values). -/
structure CallbackRequest where
  params : List (String × String)
deriving Repr, DecidableEq

/-- `params['code'][0]` when `'code' in params`, else `none`. -/
def getParam (ps : List (String × String)) (k : String) : Option String :=
  (ps.find? (fun p => p.1 == k)).map Prod.snd

/-- `OAuthCallbackHandler.do_GET`: a request carrying a `code` parameter
overwrites the class-level captured code and is answered 200; any other
request leaves the captured code unchanged and is answered 400. -/
def OAuthCallbackHandler.do_GET (captured : Option String) (req : CallbackRequest) :
    Option String × Nat :=
  match getParam req.params "code" with
  | some code => (some code, 200)
  | none => (captured, 400)

/-- The `run_server` loop of `start_callback_server`: while no code is
captured, handle one request at a time (the `HTTPServer.handle_request`
loop is single-threaded, so requests are processed sequentially); once a
code is captured, stop handling requests.  Returns the final captured
value and the status codes of the requests actually handled. -/
def serverLoop : Option String → List CallbackRequest → Option String × List Nat
  | captured, [] => (captured, [])
  | captured, req :: reqs =>
    match captured with
    | some c => (some c, [])
    | none =>
      let r := OAuthCallbackHandler.do_GET none req
      let rest := serverLoop r.1 reqs
      (rest.1, r.2 :: rest.2)

/-- `start_callback_server`: reset the captured code to `None`, then run
the handler loop over the incoming requests of one listening window. -/
def start_callback_server (reqs : List CallbackRequest) : Option String × List Nat :=
  serverLoop none reqs

/-- Whether a request carries no `code` parameter. -/
def noCode (req : CallbackRequest) : Bool := (getParam req.params "code").isNone

/- ### List/string lemmas for the gateway -/

theorem optTruthy_none : optTruthy none = false := rfl

theorem optTruthy_some (s : String) : optTruthy (some s) = !(s == "") := rfl

theorem isPrefixOf_append_self (l r : List Char) : l.isPrefixOf (l ++ r) = true := by
  induction l with
  | nil => simp [List.isPrefixOf]
  | cons a as ih => simp [List.isPrefixOf, ih]

theorem pyStartsWith_append (p r : String) : pyStartsWith (p ++ r) p = true := by
  simp [pyStartsWith, String.data_append, isPrefixOf_append_self]

theorem replaceFirstL_append (pat repl s : List Char) :
    replaceFirstL pat repl (pat ++ s) = repl ++ s := by
  cases pat with
  | nil =>
    cases s with
    | nil => simp [replaceFirstL]
    | cons c rest => simp [replaceFirstL, List.isPrefixOf]
  | cons p ps =>
    have hpre : (p :: ps).isPrefixOf (p :: (ps ++ s)) = true := by
      simp [List.isPrefixOf, isPrefixOf_append_self]
    simp [replaceFirstL, hpre, List.drop_left]

theorem pyReplaceFirst_append (p r rest : String) :
    pyReplaceFirst (p ++ rest) p r = r ++ rest := by
  show (⟨replaceFirstL p.data r.data (p ++ rest).data⟩ : String) = r ++ rest
  rw [String.data_append, replaceFirstL_append, ← String.data_append]

/- ### Claims C1 and C10: gateway behaviour -/

/-- C1: For every HTTP request whose path starts with the configured
external path: a presented api-key header value different from the
configured secret yields a 401 response whose body contains
"Unauthorized", and the downstream app is never invoked (the result is a
`reject`, not a `forward`); with the matching key, `sse_path = "/mcp"` and
`rewrite_to = "/sse"` configured, the downstream app sees the `/mcp`
prefix replaced by `/sse`; and every request whose path starts with
neither configured path is forwarded untouched regardless of headers. -/
theorem C1_gateway_auth :
    (∀ (m : ApiKeyAuthMiddleware) (scope : Scope),
      scope.type = "http" →
      pyStartsWith scope.path m.sse_path = true →
      headerGet scope.headers m.header_name ≠ some m.expected_key →
      ApiKeyAuthMiddleware.call m scope = .reject 401 unauthorizedBody
        ∧ "Unauthorized".data.isPrefixOf unauthorizedBody.data = true)
    ∧ (∀ (m : ApiKeyAuthMiddleware) (scope : Scope) (rest : String),
      scope.type = "http" →
      m.sse_path = "/mcp" →
      m.rewrite_to = some "/sse" →
      scope.path = "/mcp" ++ rest →
      headerGet scope.headers m.header_name = some m.expected_key →
      ApiKeyAuthMiddleware.call m scope = .forward { scope with path := "/sse" ++ rest })
    ∧ (∀ (m : ApiKeyAuthMiddleware) (scope : Scope),
      pyStartsWith scope.path m.sse_path = false →
      (∀ r, m.rewrite_to = some r → pyStartsWith scope.path r = false) →
      ApiKeyAuthMiddleware.call m scope = .forward scope) := by
  refine ⟨?_, ?_, ?_⟩
  · intro m scope htype hstart hkey
    refine ⟨?_, by decide⟩
    simp [ApiKeyAuthMiddleware.call, htype, hstart, hkey]
  · intro m scope rest htype hsse hrw hpath hkey
    have hstart : pyStartsWith scope.path m.sse_path = true := by
      rw [hpath, hsse]; exact pyStartsWith_append "/mcp" rest
    have hrepl : pyReplaceFirst scope.path m.sse_path "/sse" = "/sse" ++ rest := by
      rw [hpath, hsse]; exact pyReplaceFirst_append "/mcp" "/sse" rest
    simp [ApiKeyAuthMiddleware.call, htype, hstart, hkey, hrw, optTruthy, hrepl]
  · intro m scope hstart hrw
    rcases hscope : m.rewrite_to with _ | r
    · simp [ApiKeyAuthMiddleware.call, hstart, hscope, optTruthy]
    · have := hrw r hscope
      simp [ApiKeyAuthMiddleware.call, hstart, hscope, optTruthy, this]

/-- Witness for C1 at concrete inputs: wrong key on `/mcp/anything` is
rejected with the Unauthorized body; the right key is forwarded with the
path rewritten to `/sse/anything`; `/health` passes through untouched. -/
theorem C1_gateway_auth_witness :
    ApiKeyAuthMiddleware.call ⟨"x-api-key", "sek", "/mcp", some "/sse"⟩
        ⟨"http", "/mcp/anything", [("x-api-key", "wrong")]⟩ = .reject 401 unauthorizedBody
    ∧ ApiKeyAuthMiddleware.call ⟨"x-api-key", "sek", "/mcp", some "/sse"⟩
        ⟨"http", "/mcp/anything", [("x-api-key", "sek")]⟩
        = .forward ⟨"http", "/sse" ++ "/anything", [("x-api-key", "sek")]⟩
    ∧ ApiKeyAuthMiddleware.call ⟨"x-api-key", "sek", "/mcp", some "/sse"⟩
        ⟨"http", "/health", [("x-api-key", "wrong")]⟩
        = .forward ⟨"http", "/health", [("x-api-key", "wrong")]⟩ := by
  refine ⟨(C1_gateway_auth.1 _ _ rfl (by decide) (by decide)).1, ?_, ?_⟩
  · exact C1_gateway_auth.2.1 ⟨"x-api-key", "sek", "/mcp", some "/sse"⟩
      ⟨"http", "/mcp/anything", [("x-api-key", "sek")]⟩ "/anything" rfl rfl rfl
      (by decide) (by decide)
  · exact C1_gateway_auth.2.2 ⟨"x-api-key", "sek", "/mcp", some "/sse"⟩
      ⟨"http", "/health", [("x-api-key", "wrong")]⟩ (by decide)
      (by intro r hr; simp at hr; subst hr; decide)

/-- C10: every ASGI scope whose type is not `"http"` is forwarded to the
wrapped app completely unchanged; no authentication check happens and the
401 branch is unreachable. -/
theorem C10_non_http_passthrough (m : ApiKeyAuthMiddleware) (scope : Scope)
    (h : scope.type ≠ "http") :
    ApiKeyAuthMiddleware.call m scope = .forward scope := by
  simp [ApiKeyAuthMiddleware.call, h]

/-- Witness for C10: a websocket scope to the protected path with no
headers at all is forwarded unchanged. -/
theorem C10_non_http_passthrough_witness :
    ApiKeyAuthMiddleware.call ⟨"x-api-key", "sek", "/mcp", some "/sse"⟩
        ⟨"websocket", "/mcp/anything", []⟩
      = .forward ⟨"websocket", "/mcp/anything", []⟩ :=
  C10_non_http_passthrough _ _ (by decide)

/- ### Claim C3: authorization-URL round trip -/

/-- C3 (code bug): `get_authorization_url` percent-encodes nothing, so the
query parameters do not round-trip.  With the realistic input
`redirect_uri = "http://localhost:38000/callback?x=1&y=2"` (and the
default scope), decoding the produced URL's query yields a truncated
`redirect_uri` and a spurious `y` parameter instead of the five inputs. -/
theorem C3_no_percent_encoding :
    parseQuery ⟨queryAfter (DidaOAuthClient.get_authorization_url
        ⟨"cid", "sec", "http://localhost:38000/callback?x=1&y=2", none, none⟩
        "tasks:read tasks:write").data⟩
      ≠ [("client_id", "cid"), ("scope", "tasks:read tasks:write"),
         ("state", "random_state"),
         ("redirect_uri", "http://localhost:38000/callback?x=1&y=2"),
         ("response_type", "code")] := by decide

/- ### Claim C4: exchange with a 200 response lacking `access_token` -/

/-- C4 counterexample: on a 200 response whose body lacks `access_token`
but carries `refresh_token = "r"`, `exchange_token` returns false as
claimed, yet the session's `refresh_token` field does not remain unset —
it is overwritten with `"r"`. -/
theorem C4_counterexample :
    (DidaOAuthClient.exchange_token ⟨"cid", "sec", "uri", none, none⟩
        (.ok ⟨none, some "r", none⟩)).1 = false
    ∧ (DidaOAuthClient.exchange_token ⟨"cid", "sec", "uri", none, none⟩
        (.ok ⟨none, some "r", none⟩)).2.refresh_token ≠ none := by decide

/-- C4 (amended): on a 200 response whose body lacks `access_token`,
`exchange_token` returns false and leaves `access_token` as `None`
(discarding any previous value), while `refresh_token` is overwritten
with the body's `refresh_token` (falling back to a `refreshToken` field
when that is falsy, `None` when absent); the identity fields are
untouched. -/
theorem C4_exchange_no_access_token (c : DidaOAuthClient) (body : TokenResponse)
    (h : body.access_token = none) :
    (c.exchange_token (.ok body)).1 = false
    ∧ (c.exchange_token (.ok body)).2.access_token = none
    ∧ (c.exchange_token (.ok body)).2.refresh_token =
        (if optTruthy body.refresh_token then body.refresh_token
         else pyOr body.refreshToken body.refresh_token)
    ∧ (c.exchange_token (.ok body)).2.client_id = c.client_id
    ∧ (c.exchange_token (.ok body)).2.client_secret = c.client_secret
    ∧ (c.exchange_token (.ok body)).2.redirect_uri = c.redirect_uri := by
  by_cases hrt : optTruthy body.refresh_token = true
  · simp [DidaOAuthClient.exchange_token, h, hrt, optTruthy_none]
  · simp [DidaOAuthClient.exchange_token, h, hrt, optTruthy_none]

/-- Witness for C4 at a concrete input: body `{"refreshToken": "rr"}`. -/
theorem C4_exchange_no_access_token_witness :
    (DidaOAuthClient.exchange_token ⟨"cid", "sec", "uri", some "old", some "oldr"⟩
        (.ok ⟨none, none, some "rr"⟩)).1 = false
    ∧ (DidaOAuthClient.exchange_token ⟨"cid", "sec", "uri", some "old", some "oldr"⟩
        (.ok ⟨none, none, some "rr"⟩)).2.access_token = none := by
  have h := C4_exchange_no_access_token ⟨"cid", "sec", "uri", some "old", some "oldr"⟩
    ⟨none, none, some "rr"⟩ rfl
  exact ⟨h.1, h.2.1⟩

/- ### Claim C7: `load_tokens` frame behaviour -/

/-- C7 counterexample: loading an existing-but-empty configuration file
over a session that already holds tokens does not leave the token fields
untouched — `access_token` is cleared to `None` (and the call reports
failure). -/
theorem C7_counterexample :
    (DidaOAuthClient.load_tokens ⟨"cid", "sec", "uri", some "tok", some "ref"⟩
        (some ⟨none, none, none, none, none⟩)).2.access_token ≠ some "tok"
    ∧ (DidaOAuthClient.load_tokens ⟨"cid", "sec", "uri", some "tok", some "ref"⟩
        (some ⟨none, none, none, none, none⟩)).1 = false := by decide

/-- C7 (amended): a missing or unparsable file leaves the whole state
untouched and returns false; with a parsed file, `client_id`,
`client_secret` and `redirect_uri` keep their previous value when the
corresponding key is absent, while `access_token` and `refresh_token` are
overwritten with the file's values (`None` when absent); the call
succeeds iff the file's access token is present and non-empty — in
particular it returns false when no access token is found. -/
theorem C7_load_tokens_frame (c : DidaOAuthClient) :
    DidaOAuthClient.load_tokens c none = (false, c)
    ∧ ∀ cfg : OAuthConfig,
        (cfg.client_id = none → (c.load_tokens (some cfg)).2.client_id = c.client_id)
        ∧ (cfg.client_secret = none →
            (c.load_tokens (some cfg)).2.client_secret = c.client_secret)
        ∧ (cfg.redirect_uri = none →
            (c.load_tokens (some cfg)).2.redirect_uri = c.redirect_uri)
        ∧ (c.load_tokens (some cfg)).2.access_token = cfg.access_token
        ∧ (c.load_tokens (some cfg)).2.refresh_token = cfg.refresh_token
        ∧ (c.load_tokens (some cfg)).1 = optTruthy cfg.access_token := by
  refine ⟨rfl, fun cfg => ⟨fun h => ?_, fun h => ?_, fun h => ?_, rfl, rfl, rfl⟩⟩
  all_goals simp [DidaOAuthClient.load_tokens, h]

/-- Witness for C7 at a concrete input: a file carrying only an access
token leaves the identity fields of the session untouched. -/
theorem C7_load_tokens_frame_witness :
    (DidaOAuthClient.load_tokens ⟨"cid", "sec", "uri", none, none⟩
        (some ⟨none, none, none, some "tok", none⟩)).2.client_id = "cid"
    ∧ (DidaOAuthClient.load_tokens ⟨"cid", "sec", "uri", none, none⟩
        (some ⟨none, none, none, some "tok", none⟩)).1 = optTruthy (some "tok") := by
  have h := (C7_load_tokens_frame ⟨"cid", "sec", "uri", none, none⟩).2
    ⟨none, none, none, some "tok", none⟩
  exact ⟨h.1 rfl, h.2.2.2.2.2⟩

/- ### Claim C9: refresh without a refresh token -/

/-- C9: when the session holds no refresh token,
`refresh_access_token` returns false immediately, with the state
unchanged and zero outbound HTTP calls. -/
theorem C9_refresh_without_token (c : DidaOAuthClient) (resp : HttpResult)
    (h : c.refresh_token = none) :
    c.refresh_access_token resp = (false, c, 0) := by
  simp [DidaOAuthClient.refresh_access_token, h, optTruthy]

/-- Witness for C9 at a concrete input: even with a 2xx response
available, nothing is sent and false is returned. -/
theorem C9_refresh_without_token_witness :
    DidaOAuthClient.refresh_access_token ⟨"cid", "sec", "uri", some "tok", none⟩
        (.ok ⟨some "newtok", some "newref", none⟩)
      = (false, ⟨"cid", "sec", "uri", some "tok", none⟩, 0) :=
  C9_refresh_without_token _ _ rfl

/- ### Claim C2: provenance of used/persisted access tokens -/

theorem exchange_token_ok_access (c : DidaOAuthClient) (body : TokenResponse) :
    (c.exchange_token (.ok body)).2.access_token = body.access_token := by
  unfold DidaOAuthClient.exchange_token
  dsimp only
  split <;> rfl

theorem exchange_token_ok_fst (c : DidaOAuthClient) (body : TokenResponse) :
    (c.exchange_token (.ok body)).1 = optTruthy body.access_token := by
  unfold DidaOAuthClient.exchange_token
  dsimp only
  split <;> rfl

theorem refresh_ok_access (c : DidaOAuthClient) (body : TokenResponse)
    (hg : optTruthy c.refresh_token = true) :
    (c.refresh_access_token (.ok body)).2.1.access_token = body.access_token := by
  unfold DidaOAuthClient.refresh_access_token
  simp [hg]
  split <;> rfl

/-- Tokens output (emitted or persisted) by a single operation either were
already justified by the pre-state or appear in the operation's response. -/
theorem stepClient_out_sub (c : DidaOAuthClient) (op : Op) (S : List String)
    (hS : ∀ u, c.access_token = some u → u ≠ "" → u ∈ S) :
    ∀ t, (t ∈ (stepClient c op).2.1 ∨ t ∈ (stepClient c op).2.2) →
      t ∈ S ∨ t ∈ respATokens op := by
  intro t ht
  cases op with
  | exchange resp => simp [stepClient] at ht
  | refresh resp => simp [stepClient] at ht
  | load file => simp [stepClient] at ht
  | save =>
    left
    rcases hsv : c.save_tokens with _ | cfg
    · simp [stepClient, hsv] at ht
    · have hacc : optTruthy c.access_token = true := by
        by_contra hx
        simp [DidaOAuthClient.save_tokens, hx] at hsv
      rcases hat : c.access_token with _ | u
      · rw [hat] at hacc; simp [optTruthy] at hacc
      · have hu : u ≠ "" := by
          rw [hat] at hacc; simpa [optTruthy] using hacc
        have hcfg : cfg.access_token = some u := by
          rw [DidaOAuthClient.save_tokens, hacc] at hsv
          simp at hsv
          rw [← hsv, hat]
        simp [stepClient, hsv, hcfg] at ht
        rw [ht]
        exact hS u hat hu
  | getHeaders =>
    left
    rcases hh : c.get_headers with _ | hdrs
    · simp [stepClient, hh] at ht
    · have hacc : optTruthy c.access_token = true := by
        by_contra hx
        simp [DidaOAuthClient.get_headers, hx] at hh
      rcases hat : c.access_token with _ | u
      · rw [hat] at hacc; simp [optTruthy] at hacc
      · have hu : u ≠ "" := by
          rw [hat] at hacc; simpa [optTruthy] using hacc
        simp [stepClient, hh, hat] at ht
        rw [ht]
        exact hS u hat hu
  | authFlowEnvWrite resp =>
    cases resp with
    | ok body =>
      rcases hsucc : (c.exchange_token (.ok body)).1 with _ | _
      · simp [stepClient, hsucc] at ht
      · have hacc : optTruthy body.access_token = true := by
          rw [← exchange_token_ok_fst c body, hsucc]
        rcases hbt : body.access_token with _ | u
        · rw [hbt] at hacc; simp [optTruthy] at hacc
        · have hu : u ≠ "" := by
            rw [hbt] at hacc; simpa [optTruthy] using hacc
          right
          simp [stepClient, hsucc, exchange_token_ok_access, hbt] at ht
          simp [respATokens, hbt, hu, ht]
    | httpError st =>
      have : (c.exchange_token (.httpError st)).1 = false := rfl
      simp [stepClient, this] at ht
    | transportError =>
      have : (c.exchange_token .transportError).1 = false := rfl
      simp [stepClient, this] at ht

/-- The post-state access token of a single operation is justified by the
pre-state, the operation's response, or the file it loaded. -/
theorem stepClient_state_inv (c : DidaOAuthClient) (op : Op) (S : List String)
    (hS : ∀ u, c.access_token = some u → u ≠ "" → u ∈ S) :
    ∀ t, (stepClient c op).1.access_token = some t → t ≠ "" →
      t ∈ S ∨ t ∈ respATokens op ∨ t ∈ fileATokens op := by
  intro t ht hne
  cases op with
  | exchange resp =>
    cases resp with
    | ok body =>
      simp only [stepClient, exchange_token_ok_access] at ht
      right; left
      simp [respATokens, ht, hne]
    | httpError st => exact Or.inl (hS t (by simpa [stepClient] using ht) hne)
    | transportError => exact Or.inl (hS t (by simpa [stepClient] using ht) hne)
  | authFlowEnvWrite resp =>
    cases resp with
    | ok body =>
      simp only [stepClient, exchange_token_ok_access] at ht
      right; left
      simp [respATokens, ht, hne]
    | httpError st => exact Or.inl (hS t (by simpa [stepClient] using ht) hne)
    | transportError => exact Or.inl (hS t (by simpa [stepClient] using ht) hne)
  | refresh resp =>
    by_cases hg : optTruthy c.refresh_token = true
    · cases resp with
      | ok body =>
        have haccess : (stepClient c (.refresh (.ok body))).1.access_token
            = body.access_token := by
          simp only [stepClient]
          exact refresh_ok_access c body hg
        rw [haccess] at ht
        right; left
        simp [respATokens, ht, hne]
      | httpError st =>
        refine Or.inl (hS t ?_ hne)
        simpa [stepClient, DidaOAuthClient.refresh_access_token, hg] using ht
      | transportError =>
        refine Or.inl (hS t ?_ hne)
        simpa [stepClient, DidaOAuthClient.refresh_access_token, hg] using ht
    · refine Or.inl (hS t ?_ hne)
      have hgf : (!optTruthy c.refresh_token) = true := by
        simp [Bool.not_eq_true] at hg ⊢
        exact hg
      simpa [stepClient, DidaOAuthClient.refresh_access_token, hgf] using ht
  | save => exact Or.inl (hS t (by simpa [stepClient] using ht) hne)
  | getHeaders => exact Or.inl (hS t (by simpa [stepClient] using ht) hne)
  | load file =>
    cases file with
    | none => exact Or.inl (hS t (by simpa [stepClient, DidaOAuthClient.load_tokens] using ht) hne)
    | some cfg =>
      have : (stepClient c (.load (some cfg))).1.access_token = cfg.access_token := rfl
      rw [this] at ht
      right; right
      simp [fileATokens, ht]

/-- Along any run, every emitted or persisted access token is justified by
the initial state, some successful exchange/refresh response, or some
loaded configuration file. -/
theorem runOps_token_provenance (ops : List Op) :
    ∀ (c : DidaOAuthClient) (S : List String),
      (∀ u, c.access_token = some u → u ≠ "" → u ∈ S) →
      ∀ t, (t ∈ (runOps c ops).2.1 ∨ t ∈ (runOps c ops).2.2) →
        t ∈ S ∨ t ∈ allRespATokens ops ∨ t ∈ allFileATokens ops := by
  induction ops with
  | nil => intro c S hS t ht; simp [runOps] at ht
  | cons op ops ih =>
    intro c S hS t ht
    have hsplit : (t ∈ (stepClient c op).2.1 ∨ t ∈ (stepClient c op).2.2)
        ∨ (t ∈ (runOps (stepClient c op).1 ops).2.1
           ∨ t ∈ (runOps (stepClient c op).1 ops).2.2) := by
      simp only [runOps, List.mem_append] at ht
      tauto
    have hresp : ∀ u, u ∈ respATokens op → u ∈ allRespATokens (op :: ops) := by
      intro u hu
      simp [allRespATokens, List.mem_append]
      exact Or.inl hu
    have hfile : ∀ u, u ∈ fileATokens op → u ∈ allFileATokens (op :: ops) := by
      intro u hu
      simp [allFileATokens, List.mem_append]
      exact Or.inl hu
    rcases hsplit with hhead | htail
    · rcases stepClient_out_sub c op S hS t hhead with h | h
      · exact Or.inl h
      · exact Or.inr (Or.inl (hresp t h))
    · have hS2 : ∀ u, (stepClient c op).1.access_token = some u → u ≠ "" →
          u ∈ S ++ respATokens op ++ fileATokens op := by
        intro u hu hune
        rcases stepClient_state_inv c op S hS u hu hune with h | h | h <;>
          simp [List.mem_append, h]
      rcases ih (stepClient c op).1 (S ++ respATokens op ++ fileATokens op) hS2 t htail
        with h | h | h
      · simp only [List.mem_append] at h
        rcases h with (h | h) | h
        · exact Or.inl h
        · exact Or.inr (Or.inl (hresp t h))
        · exact Or.inr (Or.inr (hfile t h))
      · refine Or.inr (Or.inl ?_)
        simp [allRespATokens] at h ⊢
        exact Or.inr h
      · refine Or.inr (Or.inr ?_)
        simp [allFileATokens] at h ⊢
        exact Or.inr h

/-- C2 counterexample: a session that only loads a configuration file and
then builds headers emits the token `"evil"`, although no exchange or
refresh response ever carried it (the trace has no successful
exchange/refresh response at all). -/
theorem C2_counterexample :
    "evil" ∈ (runOps (DidaOAuthClient.init "cid" "sec" "uri")
        [.load (some ⟨none, none, none, some "evil", none⟩), .getHeaders]).2.1
    ∧ allRespATokens
        [.load (some ⟨none, none, none, some "evil", none⟩), .getHeaders] = [] := by
  decide

/-- C2 (amended): for every sequence of operations on a fresh session, an
access token is emitted by `get_headers` or persisted by
`save_tokens`/the `.env` writer only if it originated from an exchange or
refresh response containing a non-empty `access_token`, **or** was read
from a stored configuration file by `load_tokens`. -/
theorem C2_token_provenance (cid sec uri : String) (ops : List Op) (t : String)
    (h : t ∈ (runOps (DidaOAuthClient.init cid sec uri) ops).2.1
       ∨ t ∈ (runOps (DidaOAuthClient.init cid sec uri) ops).2.2) :
    t ∈ allRespATokens ops ∨ t ∈ allFileATokens ops := by
  have hinit : ∀ u, (DidaOAuthClient.init cid sec uri).access_token = some u → u ≠ "" →
      u ∈ ([] : List String) := by
    intro u hu
    simp [DidaOAuthClient.init] at hu
  rcases runOps_token_provenance ops (DidaOAuthClient.init cid sec uri) [] hinit t h
    with h | h | h
  · simp at h
  · exact Or.inl h
  · exact Or.inr h

/-- Witness for C2 at a concrete trace: a token obtained by a successful
exchange and then emitted is indeed justified by that response. -/
theorem C2_token_provenance_witness :
    "tok" ∈ allRespATokens [Op.exchange (.ok ⟨some "tok", none, none⟩), Op.getHeaders]
    ∨ "tok" ∈ allFileATokens [Op.exchange (.ok ⟨some "tok", none, none⟩), Op.getHeaders] :=
  C2_token_provenance "cid" "sec" "uri" _ "tok" (Or.inl (by decide))

/- ### Claim C5: MCP endpoint bearer check -/

theorem pyReplaceAllFuel_of_not_infix (p : Char) (ps repl : List Char) :
    ∀ (l : List Char) (n : Nat), l.length ≤ n → ¬((p :: ps) <:+: l) →
      pyReplaceAllFuel p ps repl n l = l := by
  intro l
  induction l with
  | nil => intro n hn h; cases n <;> rfl
  | cons c rest ih =>
    intro n hn h
    cases n with
    | zero => simp at hn
    | succ m =>
      have hcond : ¬(c = p ∧ ps.isPrefixOf rest = true) := by
        rintro ⟨hc, hp⟩
        apply h
        subst hc
        have hpre : (c :: ps) <+: (c :: rest) := by
          rcases List.isPrefixOf_iff_prefix.mp hp with ⟨t, ht⟩
          exact ⟨t, by simp [ht]⟩
        exact hpre.isInfix
      have hrest : ¬((p :: ps) <:+: rest) := fun hx => h (List.infix_cons hx)
      have hm : rest.length ≤ m := by simp at hn; omega
      simp only [pyReplaceAllFuel, hcond, if_false, ih m hm hrest]

theorem pyReplaceAllFuel_append (p : Char) (ps repl k : List Char) (n : Nat) :
    pyReplaceAllFuel p ps repl (n + 1) ((p :: ps) ++ k) =
      repl ++ pyReplaceAllFuel p ps repl n k := by
  simp [pyReplaceAllFuel, isPrefixOf_append_self, List.drop_left]

theorem bearerToken_append (k : String) (hnb : ¬(('B' :: "earer ".data) <:+: k.data)) :
    bearerToken ("Bearer " ++ k) = pyStrip k := by
  unfold bearerToken pyReplaceAllL
  have hdata : ("Bearer " ++ k).data = ('B' :: "earer ".data) ++ k.data := by
    rw [String.data_append]
  rw [hdata, List.length_append]
  have h7 : ('B' :: "earer ".data).length = 7 := rfl
  rw [h7]
  have hn : 7 + k.data.length = (6 + k.data.length) + 1 := by omega
  rw [hn, pyReplaceAllFuel_append,
    pyReplaceAllFuel_of_not_infix _ _ _ k.data (6 + k.data.length) (by omega) hnb]
  rfl

/-- C5 counterexample: with the configured secret `" x"` (leading space),
a request presenting exactly that secret via `X-API-Key` is rejected —
the handler strips the presented value before comparing — so
`verify_api_key` does not accept the secret presented via `X-API-Key`,
and the `/mcp` handler responds 401 / −32001. -/
theorem C5_counterexample :
    verify_api_key " x" ⟨[("X-API-Key", " x")]⟩ = false
    ∧ mcp_endpoint " x" ⟨[("X-API-Key", " x")]⟩ "{}" = .unauthorized 401 (-32001) := by
  decide

/-- C5 (amended): `verify_api_key` authenticates every request when no
secret is configured.  Otherwise, for a configured secret that is
non-empty, equal to its whitespace-stripped form and free of the
substring `"Bearer "`: the secret is accepted when presented as
`Authorization: Bearer <key>`, or — when the Authorization header is not
in Bearer form — via an `X-API-Key`/`x-api-key` header (the header lookup
is case-insensitive, so these are aliases); a Bearer-form Authorization
header shadows the API-key headers (its mismatch rejects the request
regardless of other headers); and whenever `verify_api_key` rejects, the
`/mcp` POST handler answers 401 with JSON-RPC error code −32001,
independently of the request body. -/
theorem C5_bearer_check (k : String) (hk : k ≠ "") (hstrip : pyStrip k = k)
    (hnb : ¬(('B' :: "earer ".data) <:+: k.data)) :
    (∀ req : HttpRequest, verify_api_key "" req = true)
    ∧ (∀ req : HttpRequest, req.headerGetD "Authorization" = "Bearer " ++ k →
        verify_api_key k req = true)
    ∧ (∀ req : HttpRequest,
        pyStartsWith (req.headerGetD "Authorization") "Bearer " = false →
        req.headerGetD "X-API-Key" = k →
        verify_api_key k req = true)
    ∧ (∀ req : HttpRequest,
        pyStartsWith (req.headerGetD "Authorization") "Bearer " = true →
        bearerToken (req.headerGetD "Authorization") ≠ k →
        verify_api_key k req = false)
    ∧ (∀ (req : HttpRequest) (body : String), verify_api_key k req = false →
        mcp_endpoint k req body = .unauthorized 401 (-32001)) := by
  have hke : (k == "") = false := by simp [hk]
  have hsw : pyStartsWith ("Bearer " ++ k) "Bearer " = true := pyStartsWith_append "Bearer " k
  refine ⟨?_, ?_, ?_, ?_, ?_⟩
  · intro req
    simp [verify_api_key]
  · intro req h
    simp only [verify_api_key, hke, h, hsw, if_true, Bool.false_eq_true, if_false,
      bearerToken_append k hnb, hstrip]
    simp [hk]
  · intro req hb hx
    simp only [verify_api_key, hke, hb, hx, Bool.false_eq_true, if_false]
    have hs : pyStrip k = k := hstrip
    simp [hk, hs]
  · intro req hb ht
    simp only [verify_api_key, hke, hb, Bool.false_eq_true, if_false, if_true]
    have hbt : (bearerToken (req.headerGetD "Authorization") == k) = false := by
      simp [ht]
    simp [hbt]
  · intro req body hv
    simp [mcp_endpoint, hv, hk]

/-- Witness for C5 with the concrete secret `"sek"`: no-secret mode
accepts an empty request, both presentation forms are accepted, and a
request with no credentials at all gets the 401 / −32001 response. -/
theorem C5_bearer_check_witness :
    verify_api_key "" ⟨[]⟩ = true
    ∧ verify_api_key "sek" ⟨[("Authorization", "Bearer sek")]⟩ = true
    ∧ verify_api_key "sek" ⟨[("x-api-key", "sek")]⟩ = true
    ∧ mcp_endpoint "sek" ⟨[]⟩ "{}" = .unauthorized 401 (-32001) := by
  have h := C5_bearer_check "sek" (by decide) (by decide) (by decide)
  exact ⟨h.1 ⟨[]⟩, h.2.1 _ (by decide), h.2.2.1 _ (by decide) (by decide),
    h.2.2.2.2 ⟨[]⟩ "{}" (by decide)⟩

/- ### Claim C6: env-file token upsert -/

theorem splitlinesGo_cons (sk : Bool) (acc : List Char) (c : Char) (rest : List Char) :
    splitlinesGo sk acc (c :: rest) =
      if sk ∧ c = '\n' then splitlinesGo false acc rest
      else if c = '\r' then acc.reverse :: splitlinesGo true [] rest
      else if isLineBreak c then acc.reverse :: splitlinesGo false [] rest
      else splitlinesGo false (c :: acc) rest := by
  simp only [splitlinesGo]

theorem lbFree_reverse (l : List Char) : lbFree l.reverse = lbFree l := by
  simp [lbFree]

/-- Every line produced by `splitlinesGo` is free of line breaks, provided
the accumulator is. -/
theorem splitlinesGo_lbFree :
    ∀ (l : List Char) (sk : Bool) (acc : List Char), lbFree acc = true →
      ∀ x ∈ splitlinesGo sk acc l, lbFree x = true := by
  intro l
  induction l with
  | nil =>
    intro sk acc hacc x hx
    simp only [splitlinesGo] at hx
    by_cases he : acc.isEmpty
    · simp [he] at hx
    · simp [he] at hx
      subst hx
      rw [lbFree_reverse]
      exact hacc
  | cons c rest ih =>
    intro sk acc hacc x hx
    rw [splitlinesGo_cons] at hx
    split_ifs at hx with h1 h2 h3
    · exact ih false acc hacc x hx
    · rcases List.mem_cons.mp hx with hx | hx
      · subst hx; rw [lbFree_reverse]; exact hacc
      · exact ih true [] rfl x hx
    · rcases List.mem_cons.mp hx with hx | hx
      · subst hx; rw [lbFree_reverse]; exact hacc
      · exact ih false [] rfl x hx
    · refine ih false (c :: acc) ?_ x hx
      simp only [lbFree, List.all_cons, Bool.and_eq_true]
      exact ⟨by simp [h3], by simpa [lbFree] using hacc⟩

/-- A `\n` under a cleared skip flag ends the current line. -/
theorem splitlinesGo_newline (acc rest : List Char) :
    splitlinesGo false acc ('\n' :: rest) = acc.reverse :: splitlinesGo false [] rest := by
  rw [splitlinesGo_cons,
    if_neg (show ¬((false : Bool) = true ∧ ('\n' : Char) = '\n') by simp),
    if_neg (show ¬(('\n' : Char) = '\r') by decide),
    if_pos (show isLineBreak '\n' = true by decide)]

/-- Scanning a break-free line accumulates it and continues. -/
theorem splitlinesGo_line (line : List Char) :
    ∀ (acc tail : List Char), lbFree line = true →
      splitlinesGo false acc (line ++ tail) = splitlinesGo false (line.reverse ++ acc) tail := by
  induction line with
  | nil => intro acc tail h; rfl
  | cons c line ih =>
    intro acc tail h
    simp only [lbFree, List.all_cons, Bool.and_eq_true] at h
    have hb : isLineBreak c = false := by simpa using h.1
    have hn : c ≠ '\n' := by intro he; subst he; simp [isLineBreak] at hb
    have hr : c ≠ '\r' := by intro he; subst he; simp [isLineBreak] at hb
    rw [List.cons_append, splitlinesGo_cons,
      if_neg (show ¬((false : Bool) = true ∧ c = '\n') by simp),
      if_neg hr, if_neg (by simp [hb])]
    rw [ih (c :: acc) tail (by simpa [lbFree] using h.2)]
    simp

/-- Splitting `joinNL lines ++ "\n"` recovers `lines`, when the line list
is non-empty and each line is break-free. -/
theorem pySplitlinesL_joinNL :
    ∀ lines : List (List Char), lines ≠ [] → (∀ x ∈ lines, lbFree x = true) →
      pySplitlinesL (joinNL lines ++ ['\n']) = lines := by
  intro lines
  induction lines with
  | nil => intro h; exact absurd rfl h
  | cons l rest ih =>
    intro _ hfree
    cases rest with
    | nil =>
      show splitlinesGo false [] ((joinNL [l]) ++ ['\n']) = [l]
      have hj : joinNL [l] = l := rfl
      rw [hj, splitlinesGo_line l [] ['\n'] (hfree l (by simp)), splitlinesGo_newline]
      simp [splitlinesGo]
    | cons l2 rest2 =>
      show splitlinesGo false [] ((joinNL (l :: l2 :: rest2)) ++ ['\n']) = l :: l2 :: rest2
      have hj : joinNL (l :: l2 :: rest2) = l ++ '\n' :: joinNL (l2 :: rest2) := rfl
      have hsplit : (l ++ '\n' :: joinNL (l2 :: rest2)) ++ ['\n']
          = l ++ '\n' :: (joinNL (l2 :: rest2) ++ ['\n']) := by simp
      rw [hj, hsplit, splitlinesGo_line l [] _ (hfree l (by simp)), splitlinesGo_newline]
      rw [show splitlinesGo false [] (joinNL (l2 :: rest2) ++ ['\n']) = l2 :: rest2 from
        ih (by simp) (fun x hx => hfree x (by simp [hx]))]
      simp

theorem lineHasKey_self (key v : List Char) : lineHasKey key (key ++ '=' :: v) = true := by
  unfold lineHasKey
  have h : key ++ '=' :: v = (key ++ ['=']) ++ v := by simp
  rw [h]
  exact isPrefixOf_append_self _ _

theorem refresh_not_access (v : List Char) :
    lineHasKey ACCESS_KEY (REFRESH_KEY ++ '=' :: v) = false := rfl

theorem access_not_refresh (v : List Char) :
    lineHasKey REFRESH_KEY (ACCESS_KEY ++ '=' :: v) = false := rfl

theorem writeEnv_structure (L : List (List Char)) (a rv : List Char) :
    upsertLine REFRESH_KEY (some rv) (upsertLine ACCESS_KEY (some a) L)
      = (L.filter (fun ln => !lineHasKey ACCESS_KEY ln)).filter
          (fun ln => !lineHasKey REFRESH_KEY ln)
        ++ [ACCESS_KEY ++ '=' :: a, REFRESH_KEY ++ '=' :: rv] := by
  unfold upsertLine
  simp [List.filter_append, access_not_refresh]

theorem getLast?_cons_ne_nl :
    ∀ (v : List Char) (c : Char), lbFree v = true → isLineBreak c = false →
      (((c :: v).getLast? == some '\n') = false) := by
  intro v
  induction v with
  | nil =>
    intro c _ hc
    have : c ≠ '\n' := by intro he; subst he; simp [isLineBreak] at hc
    simp [this]
  | cons d v ih =>
    intro c hv hc
    simp only [lbFree, List.all_cons, Bool.and_eq_true] at hv
    rw [List.getLast?_cons_cons]
    exact ih d (by simpa [lbFree] using hv.2) (by simpa using hv.1)

theorem content_endswith_writeEnv (L : List (List Char)) (a rv : List Char)
    (hrv : lbFree rv = true) :
    content_endswith_newline
      (upsertLine REFRESH_KEY (some rv) (upsertLine ACCESS_KEY (some a) L)) = false := by
  rw [writeEnv_structure]
  unfold content_endswith_newline
  have hsplit :
      ((L.filter (fun ln => !lineHasKey ACCESS_KEY ln)).filter
          (fun ln => !lineHasKey REFRESH_KEY ln))
        ++ [ACCESS_KEY ++ '=' :: a, REFRESH_KEY ++ '=' :: rv]
      = (((L.filter (fun ln => !lineHasKey ACCESS_KEY ln)).filter
          (fun ln => !lineHasKey REFRESH_KEY ln))
        ++ [ACCESS_KEY ++ '=' :: a]) ++ [REFRESH_KEY ++ '=' :: rv] := by simp
  rw [hsplit, List.getLast?_concat]
  rcases rv with _ | ⟨d, v⟩
  · decide
  · show (((REFRESH_KEY ++ ['=']) ++ d :: v).getLast? == some '\n') = false
    rw [List.getLast?_append]
    simp only [lbFree, List.all_cons, Bool.and_eq_true] at hrv
    have h := getLast?_cons_ne_nl v d (by simpa [lbFree] using hrv.2) (by simpa using hrv.1)
    rcases hy : (d :: v).getLast? with _ | y
    · simp at hy
    · rw [hy] at h
      simp only [hy, Option.or_some]
      exact h


theorem write_env_tokens_eq_join (e : Option (List Char)) (a : List Char)
    (r : Option (List Char)) (hrv : lbFree (r.getD []) = true) :
    write_env_tokens e a r = joinNL (writeEnvLines e a r) ++ ['\n'] := by
  unfold write_env_tokens
  rw [show content_endswith_newline (writeEnvLines e a r) = false from
    content_endswith_writeEnv (linesOf e) a (r.getD []) hrv]
  rfl

theorem lbFree_access_line (a : List Char) (ha : lbFree a = true) :
    lbFree (ACCESS_KEY ++ '=' :: a) = true := by
  unfold lbFree at ha ⊢
  rw [List.all_append]
  simp [ha]
  decide

theorem lbFree_refresh_line (rv : List Char) (hrv : lbFree rv = true) :
    lbFree (REFRESH_KEY ++ '=' :: rv) = true := by
  unfold lbFree at hrv ⊢
  rw [List.all_append]
  simp [hrv]
  decide

theorem writeEnvLines_lbFree (e : Option (List Char)) (a : List Char) (r : Option (List Char))
    (ha : lbFree a = true) (hrv : lbFree (r.getD []) = true) :
    ∀ x ∈ writeEnvLines e a r, lbFree x = true := by
  intro x hx
  unfold writeEnvLines at hx
  rw [writeEnv_structure] at hx
  rcases List.mem_append.mp hx with hx | hx
  · have hx0 := (List.mem_filter.mp ((List.mem_filter.mp hx).1)).1
    rcases e with _ | content
    · simp [linesOf] at hx0
    · exact splitlinesGo_lbFree content false [] rfl x hx0
  · rcases List.mem_cons.mp hx with hx | hx
    · subst hx
      exact lbFree_access_line a ha
    · rcases List.mem_cons.mp hx with hx | hx
      · subst hx
        exact lbFree_refresh_line _ hrv
      · cases hx

theorem pySplitlinesL_write (e : Option (List Char)) (a : List Char) (r : Option (List Char))
    (ha : lbFree a = true) (hrv : lbFree (r.getD []) = true) :
    pySplitlinesL (write_env_tokens e a r) = writeEnvLines e a r := by
  rw [write_env_tokens_eq_join e a r hrv]
  refine pySplitlinesL_joinNL _ ?_ (writeEnvLines_lbFree e a r ha hrv)
  unfold writeEnvLines
  rw [writeEnv_structure]
  simp

theorem writeEnvLines_stable (e : Option (List Char)) (a : List Char) (r : Option (List Char))
    (ha : lbFree a = true) (hrv : lbFree (r.getD []) = true) :
    writeEnvLines (some (write_env_tokens e a r)) a r = writeEnvLines e a r := by
  show upsertLine REFRESH_KEY (some (r.getD []))
      (upsertLine ACCESS_KEY (some a) (pySplitlinesL (write_env_tokens e a r)))
    = writeEnvLines e a r
  rw [pySplitlinesL_write e a r ha hrv]
  conv_lhs => rw [show writeEnvLines e a r
    = (((linesOf e).filter (fun ln => !lineHasKey ACCESS_KEY ln)).filter
        (fun ln => !lineHasKey REFRESH_KEY ln))
      ++ [ACCESS_KEY ++ '=' :: a, REFRESH_KEY ++ '=' :: r.getD []] from
      writeEnv_structure (linesOf e) a (r.getD [])]
  conv_rhs => rw [show writeEnvLines e a r
    = (((linesOf e).filter (fun ln => !lineHasKey ACCESS_KEY ln)).filter
        (fun ln => !lineHasKey REFRESH_KEY ln))
      ++ [ACCESS_KEY ++ '=' :: a, REFRESH_KEY ++ '=' :: r.getD []] from
      writeEnv_structure (linesOf e) a (r.getD [])]
  rw [writeEnv_structure]
  congr 1
  rw [List.filter_append, List.filter_append]
  have h1 : List.filter (fun ln => !lineHasKey ACCESS_KEY ln)
      [ACCESS_KEY ++ '=' :: a, REFRESH_KEY ++ '=' :: r.getD []]
      = [REFRESH_KEY ++ '=' :: r.getD []] := by
    simp [List.filter, lineHasKey_self, refresh_not_access]
  have h2 : List.filter (fun ln => !lineHasKey REFRESH_KEY ln)
      [REFRESH_KEY ++ '=' :: r.getD []] = [] := by
    simp [List.filter, lineHasKey_self]
  rw [h1, h2, List.append_nil]
  rw [List.filter_filter, List.filter_filter, List.filter_filter, List.filter_filter]
  exact List.filter_congr (fun ln _ => by
    cases lineHasKey REFRESH_KEY ln <;> cases lineHasKey ACCESS_KEY ln <;> rfl)

theorem write_env_tokens_idem (e : Option (List Char)) (a : List Char) (r : Option (List Char))
    (ha : lbFree a = true) (hrv : lbFree (r.getD []) = true) :
    write_env_tokens (some (write_env_tokens e a r)) a r = write_env_tokens e a r := by
  rw [write_env_tokens_eq_join (some (write_env_tokens e a r)) a r hrv,
    writeEnvLines_stable e a r ha hrv]
  exact (write_env_tokens_eq_join e a r hrv).symm

theorem joinNL_getLast (y : List Char) (hy : y ≠ []) :
    ∀ xs : List (List Char), (joinNL (xs ++ [y])).getLast? = y.getLast? := by
  intro xs
  induction xs with
  | nil => rfl
  | cons x xs ih =>
    rcases hxy : xs ++ [y] with _ | ⟨z, zs⟩
    · exact absurd hxy (by simp)
    · have hshape : joinNL (x :: xs ++ [y]) = x ++ '\n' :: joinNL (xs ++ [y]) := by
        rw [show x :: xs ++ [y] = x :: (xs ++ [y]) from rfl, hxy]
        rfl
      rw [hshape, List.getLast?_append]
      obtain ⟨y0, hy0⟩ : ∃ y0, y.getLast? = some y0 := by
        rcases hg : y.getLast? with _ | y0
        · rw [List.getLast?_eq_none_iff] at hg
          exact absurd hg hy
        · exact ⟨y0, rfl⟩
      have hJ : (joinNL (xs ++ [y])).getLast? = some y0 := by rw [ih, hy0]
      have hcons : ('\n' :: joinNL (xs ++ [y])).getLast? = some y0 := by
        rw [show ('\n' :: joinNL (xs ++ [y])) = ['\n'] ++ joinNL (xs ++ [y]) from rfl,
          List.getLast?_append, hJ]
        rfl
      rw [hcons, hy0]
      rfl

theorem refresh_line_getLast_ne (rv : List Char) (hrv : lbFree rv = true) :
    ((REFRESH_KEY ++ '=' :: rv).getLast? == some '\n') = false := by
  rcases rv with _ | ⟨d, v⟩
  · decide
  · show (((REFRESH_KEY ++ ['=']) ++ d :: v).getLast? == some '\n') = false
    rw [List.getLast?_append]
    simp only [lbFree, List.all_cons, Bool.and_eq_true] at hrv
    have h := getLast?_cons_ne_nl v d (by simpa [lbFree] using hrv.2) (by simpa using hrv.1)
    rcases hy : (d :: v).getLast? with _ | y
    · simp at hy
    · rw [hy] at h
      simp only [hy, Option.or_some]
      exact h

theorem countP_writeEnv (e : Option (List Char)) (a : List Char) (r : Option (List Char)) :
    (writeEnvLines e a r).countP (fun ln => lineHasKey ACCESS_KEY ln) = 1
    ∧ (writeEnvLines e a r).countP (fun ln => lineHasKey REFRESH_KEY ln) = 1 := by
  unfold writeEnvLines
  rw [writeEnv_structure, List.countP_append, List.countP_append]
  constructor
  · have hz : ((((linesOf e).filter (fun ln => !lineHasKey ACCESS_KEY ln)).filter
        (fun ln => !lineHasKey REFRESH_KEY ln)).countP
          (fun ln => lineHasKey ACCESS_KEY ln)) = 0 := by
      rw [List.countP_eq_zero]
      intro ln hln
      have := (List.mem_filter.mp ((List.mem_filter.mp hln).1)).2
      simp at this
      simp [this]
    rw [hz]
    simp [List.countP_cons, lineHasKey_self, refresh_not_access]
  · have hz : ((((linesOf e).filter (fun ln => !lineHasKey ACCESS_KEY ln)).filter
        (fun ln => !lineHasKey REFRESH_KEY ln)).countP
          (fun ln => lineHasKey REFRESH_KEY ln)) = 0 := by
      rw [List.countP_eq_zero]
      intro ln hln
      have := (List.mem_filter.mp hln).2
      simp at this
      simp [this]
    rw [hz]
    simp [List.countP_cons, lineHasKey_self, access_not_refresh]

/-- C6 counterexample: with an access token containing a newline, applying
the env-file upsert twice is not idempotent — the second application
splits the token line at the embedded newline, prunes only its first
half, and leaves a stray `"b"` line behind. -/
theorem C6_counterexample :
    write_env_tokens (some (write_env_tokens none "a\nb".data (some "r".data)))
        "a\nb".data (some "r".data)
      ≠ write_env_tokens none "a\nb".data (some "r".data) := by decide

/-- C6 (amended): for tokens free of line-break characters, the env-file
upsert is idempotent (byte-identical content); with `refresh_token`
absent it still writes a `DIDA_REFRESH_TOKEN=` line with an empty value;
every unrelated line of the existing file is preserved; exactly one line
per token key exists afterwards; and the resulting content ends with a
single trailing newline. -/
theorem C6_env_upsert (e : Option (List Char)) (a : List Char) (r : Option (List Char))
    (ha : lbFree a = true) (hrv : lbFree (r.getD []) = true) :
    write_env_tokens (some (write_env_tokens e a r)) a r = write_env_tokens e a r
    ∧ (REFRESH_KEY ++ ['=']) ∈ pySplitlinesL (write_env_tokens e a none)
    ∧ (∀ ln ∈ linesOf e, lineHasKey ACCESS_KEY ln = false → lineHasKey REFRESH_KEY ln = false →
        ln ∈ pySplitlinesL (write_env_tokens e a r))
    ∧ (pySplitlinesL (write_env_tokens e a r)).countP (fun ln => lineHasKey ACCESS_KEY ln) = 1
    ∧ (pySplitlinesL (write_env_tokens e a r)).countP (fun ln => lineHasKey REFRESH_KEY ln) = 1
    ∧ ∃ s : List Char, write_env_tokens e a r = s ++ ['\n'] ∧ s.getLast? ≠ some '\n' := by
  refine ⟨write_env_tokens_idem e a r ha hrv, ?_, ?_, ?_, ?_, ?_⟩
  · rw [pySplitlinesL_write e a none ha rfl]
    unfold writeEnvLines
    rw [writeEnv_structure]
    simp
  · intro ln hln hA hR
    rw [pySplitlinesL_write e a r ha hrv]
    unfold writeEnvLines
    rw [writeEnv_structure]
    refine List.mem_append.mpr (Or.inl ?_)
    exact List.mem_filter.mpr ⟨List.mem_filter.mpr ⟨hln, by simp [hA]⟩, by simp [hR]⟩
  · rw [pySplitlinesL_write e a r ha hrv]
    exact (countP_writeEnv e a r).1
  · rw [pySplitlinesL_write e a r ha hrv]
    exact (countP_writeEnv e a r).2
  · refine ⟨joinNL (writeEnvLines e a r), write_env_tokens_eq_join e a r hrv, ?_⟩
    have hshape : writeEnvLines e a r
        = ((((linesOf e).filter (fun ln => !lineHasKey ACCESS_KEY ln)).filter
            (fun ln => !lineHasKey REFRESH_KEY ln))
          ++ [ACCESS_KEY ++ '=' :: a]) ++ [REFRESH_KEY ++ '=' :: r.getD []] := by
      unfold writeEnvLines
      rw [writeEnv_structure]
      simp
    rw [hshape, joinNL_getLast _ (by simp)]
    have h := refresh_line_getLast_ne (r.getD []) hrv
    intro hc
    rw [hc] at h
    simp at h

/-- Witness for C6 at a concrete input: a file `"X=1"` with token
`"abc"` and no refresh token — the upsert is idempotent and the unrelated
`X=1` line survives. -/
theorem C6_env_upsert_witness :
    write_env_tokens (some (write_env_tokens (some "X=1".data) "abc".data none))
        "abc".data none
      = write_env_tokens (some "X=1".data) "abc".data none
    ∧ "X=1".data ∈ pySplitlinesL (write_env_tokens (some "X=1".data) "abc".data none) := by
  have h := C6_env_upsert (some "X=1".data) "abc".data none (by decide) (by decide)
  exact ⟨h.1, h.2.2.1 "X=1".data (by decide) (by decide) (by decide)⟩

/- ### Claim C8: callback-listener window -/

theorem serverLoop_captured (c : String) : ∀ reqs, serverLoop (some c) reqs = (some c, []) := by
  intro reqs
  cases reqs <;> rfl

/-- C8: over one listening window (requests processed sequentially by the
single-threaded `handle_request` loop), the requests handled are exactly
the leading code-less ones — each answered 400 and leaving the captured
value `none` — followed by the first request carrying a `code` parameter,
answered 200; that request alone ends the Listening state, no later
request is handled, and the single value delivered to the waiting caller
is that first request's code (`none` when the window times out with no
code-carrying request). -/
theorem C8_listener (reqs : List CallbackRequest) :
    (start_callback_server reqs).1
      = (reqs.dropWhile noCode).head?.bind (fun q => getParam q.params "code")
    ∧ (start_callback_server reqs).2
      = (reqs.takeWhile noCode).map (fun _ => 400)
        ++ (if (reqs.dropWhile noCode).isEmpty then [] else [200]) := by
  unfold start_callback_server
  induction reqs with
  | nil => exact ⟨rfl, rfl⟩
  | cons q reqs ih =>
    rcases hq : getParam q.params "code" with _ | c
    · have hnc : noCode q = true := by simp [noCode, hq]
      have hstep : serverLoop none (q :: reqs)
          = ((serverLoop none reqs).1, 400 :: (serverLoop none reqs).2) := by
        simp [serverLoop, OAuthCallbackHandler.do_GET, hq]
      rw [hstep, List.dropWhile_cons, List.takeWhile_cons]
      simp only [hnc, if_true]
      exact ⟨ih.1, by rw [ih.2]; simp⟩
    · have hnc : noCode q = false := by simp [noCode, hq]
      have hstep : serverLoop none (q :: reqs) = (some c, [200]) := by
        simp [serverLoop, OAuthCallbackHandler.do_GET, hq, serverLoop_captured]
      rw [hstep, List.dropWhile_cons, List.takeWhile_cons]
      simp [hnc, hq]
